import Mathlib

/-!
Verification development for the WinHttpFileServer repository
(src/HttpFileServer.cpp).

The C++ source is shallowly embedded below:

* byte strings of the C++ program (std::string contents, request buffers,
  file contents, responses) are modelled as Lean `String`s / `List Char`,
  one `Char` (code point < 256) per byte;
* the fixed responses and `build_response_with_http_code` are translated
  verbatim;
* `HttpConnection` request processing (`process_request`, `uri_decode`,
  `hex_to_decimal`, `string_icompare`, `serve_file`, `serve_dir`,
  `build_file_size`, `start`) is translated function by function.  External
  effects (the socket, the filesystem) are passed in through an explicit
  environment `ConnEnv`; a C++ exception escaping from a function is
  modelled as `Except.error` (the source installs no try/catch handler in
  any of these functions, so an error is propagated, never caught);
* the `ThreadPool` is modelled as a transition system whose atomic steps
  are exactly the critical sections of the source (every queue access is
  performed under the single mutex `mut`, so one lock-protected region is
  one atomic step);
* the `HttpFileServer::serve` accept loop is modelled by `serve_loop` over
  the sequence of `accept` results.
-/

/-! ### std::string helpers

`strFind s pat start` models `s.find(pat, start)` of `std::string`:
the least index `i ≥ start` at which `pat` occurs in `s`, `none` for
`std::string::npos`. -/

def findPat (pat : List Char) : List Char → Option Nat
  | [] => if pat.isEmpty then some 0 else none
  | c :: rest =>
    if pat.isPrefixOf (c :: rest) then some 0
    else (findPat pat rest).map (· + 1)

def strFind (s pat : List Char) (start : Nat) : Option Nat :=
  (findPat pat (s.drop start)).map (· + start)

/-! ### Fixed responses (HttpFileServer.cpp lines 33-49)

Note the translated `build_response_with_http_code` emits a status line,
`Content-Type`, `Content-Length` and the body: there is no
`Connection: close` header in these fixed responses. -/

def build_response_with_http_code (code : Nat) (msg : String) : String :=
  let html := "<html><h1>" ++ (msg ++ "</h1></html>")
  "HTTP/1.1 " ++ (toString code ++ (" " ++ (msg ++ "\r\n")))
    ++ ("Content-Type: text/html\r\n"
    ++ ("Content-Length: " ++ (toString html.length ++ ("\r\n\r\n"
    ++ html))))

def HTTP_200_OK : String := build_response_with_http_code 200 "OK"

def HTTP_404_NOT_FOUND : String := build_response_with_http_code 404 "Not Found"

def HTTP_405_METHOD_NOT_ALLOWED : String :=
  build_response_with_http_code 405 "Method Not Allowd"

def HTTP_414_URI_TOO_LONG : String := build_response_with_http_code 414 "Uri Too Long"

def HTTP_500_INTERNAL_SERVER_ERROR : String :=
  build_response_with_http_code 500 "Internal Server Error"

/-! ### Constants (lines 52-54) -/

def HTTP_RECV_BUFFER_LEN : Nat := 8192

def HTTP_RECV_TIMEOUT_SEC : Nat := 5

def HTTP_URI_MAX_LEN : Nat := 1024

/-! ### MIME table (lines 56-69)

`std::map<std::string, std::string>` with distinct keys, queried only with
exact-key `find`; an association list with `List.lookup` has the same
`find` semantics. -/

def HTTP_MIME_TABLE : List (String × String) :=
  [(".css", "text/css"), (".gif", "image/gif"), (".htm", "text/html"),
   (".html", "text/html"), (".jpeg", "image/jpeg"), (".jpg", "image/jpeg"),
   (".ico", "image/x-icon"), (".js", "application/javascript"),
   (".mp4", "video/mp4"), (".png", "image/png"), (".svg", "image/svg+xml"),
   (".xml", "text/xml")]

/-! ### HttpConnection string utilities (lines 290-327) -/

/-- `HttpConnection::string_icompare` (lines 290-294): `std::ranges::equal`
with a `toupper`-comparison, i.e. equal lengths and pointwise equality of
upper-cased characters.  C-locale `std::toupper` upper-cases exactly the
ASCII letters, which is `Char.toUpper`. -/
def string_icompare : List Char → List Char → Bool
  | [], [] => true
  | a :: l, b :: r => (a.toUpper == b.toUpper) && string_icompare l r
  | _, _ => false

/-- `HttpConnection::hex_to_decimal` (lines 296-308), translated on byte
values: 48-57 are the character literals `0`-`9`, 97-122 are `a`-`z`,
65-90 are `A`-`Z` (the source accepts ALL letters, not only hex digits),
everything else yields -1. -/
def hex_to_decimal (c : Char) : Int :=
  if 48 ≤ c.toNat ∧ c.toNat ≤ 57 then (c.toNat : Int) - 48
  else if 97 ≤ c.toNat ∧ c.toNat ≤ 122 then (c.toNat : Int) - 97 + 10
  else if 65 ≤ c.toNat ∧ c.toNat ≤ 90 then (c.toNat : Int) - 65 + 10
  else -1

/-- `HttpConnection::uri_decode` (lines 310-327).  The source consumes a
`%` whenever at least two bytes follow it (`uri[i] == '%' && i + 2 < len`),
with no check that those bytes are hex digits; the produced byte is
`static_cast<char>(16 * hex_to_decimal(a) + hex_to_decimal(b))`, i.e. the
value reduced modulo 256 (two's-complement truncation).  A `%` with fewer
than two following bytes, and every other byte, is copied unchanged. -/
def uri_decode : List Char → List Char
  | [] => []
  | c :: a :: b :: rest =>
    if c = '%' then
      Char.ofNat (((16 * hex_to_decimal a + hex_to_decimal b) % 256).toNat)
        :: uri_decode rest
    else c :: uri_decode (a :: b :: rest)
  | c :: rest => c :: uri_decode rest

/-! ### Response building for files and directories (lines 333-405) -/

/-- The content-type computation of `serve_file` (lines 334-343):
exact-key `find` on the MIME table — with no case conversion of the
extension — and `text/plain` on a miss. -/
def mime_content_type (extension : String) : String :=
  match HTTP_MIME_TABLE.lookup extension with
  | some v => v
  | none => "text/plain"

/-- `HttpConnection::serve_file` (lines 333-362).  `extension` is
`p.extension().string()` of the resolved path, `fileContent` is the result
of opening and reading the file (`none` when `std::ifstream` failed to
open).  The result is the list of `send` calls made on the socket. -/
def serve_file (extension : String) (fileContent : Option String) : List String :=
  let contentType := mime_content_type extension
  match fileContent with
  | some content =>
    let response :=
      "HTTP/1.1 200 OK\r\nServer: Miku Server\r\nConnection: close\r\n"
        ++ (("Content-Type: " ++ contentType ++ "\r\n")
        ++ (("Content-Length: " ++ toString content.length ++ "\r\n")
        ++ "\r\n"))
    [response, content]
  | none => [HTTP_404_NOT_FOUND]

/-- `HttpConnection::build_file_size` (lines 364-377). -/
def build_file_size (size : Nat) : String :=
  if size < 1024 then toString size ++ " Bytes"
  else if 1024 ≤ size ∧ size < 1024 * 1024 then toString (size / 1024) ++ " KB"
  else if 1024 * 1024 ≤ size ∧ size < 1024 * 1024 * 1024 then
    toString (size / 1024 / 1024) ++ " MB"
  else toString (size / 1024 / 1024 / 1024) ++ " GB"

/-- One entry produced by `fs::directory_iterator`: its UTF-8 file name,
whether `fs::is_directory(entry)` holds, and the result of
`fs::file_size(entry)` — `Except.error` models the `fs::filesystem_error`
that the throwing overload of `fs::file_size` can raise. -/
structure DirEntry where
  name : String
  isDir : Bool
  size : Except Nat Nat

/-- The body fragment built by the `for` loop of `serve_dir`
(lines 384-397): one anchor per entry, directories suffixed `/`, files
annotated with `build_file_size`.  An error raised by `fs::file_size` is
propagated (the source has no handler). -/
def dirBody : List DirEntry → Except Nat String
  | [] => Except.ok ""
  | e :: rest =>
    if e.isDir then
      (dirBody rest).map
        (fun b => ("<a href=\x27" ++ e.name ++ "/\x27>" ++ e.name ++ "/</a><br>") ++ b)
    else
      match e.size with
      | Except.error ec => Except.error ec
      | Except.ok sz =>
        (dirBody rest).map
          (fun b => ("<a href=\x27" ++ e.name ++ "\x27>" ++ e.name ++ "</a>   "
            ++ build_file_size sz ++ " <br>") ++ b)

/-- `HttpConnection::serve_dir` (lines 379-405).  `dirName` is the UTF-8
rendering of the resolved path, `dirIter` the result of constructing
`fs::directory_iterator(p, skip_permission_denied)` (`Except.error` models
the `fs::filesystem_error` that constructor can raise).  On success the
single `send` call is returned; an error propagates uncaught. -/
def serve_dir (dirName : String) (dirIter : Except Nat (List DirEntry)) :
    Except Nat (List String) :=
  match dirIter with
  | Except.error e => Except.error e
  | Except.ok entries =>
    match dirBody entries with
    | Except.error e => Except.error e
    | Except.ok entriesBody =>
      let body :=
        "<html><header><h1>Miku Server</h1></header><body>"
          ++ (("Current dir: " ++ dirName ++ "<br><br>")
          ++ (entriesBody
          ++ "</body></html>"))
      let response :=
        "HTTP/1.1 200 OK\r\nServer: Miku Server\r\nConnection: close\r\n"
          ++ ("Content-Type: text/html; charset=utf-8\r\n"
          ++ (("Content-Length: " ++ toString body.length ++ "\r\n\r\n")
          ++ body))
      Except.ok [response]

/-! ### Request-line processing (lines 407-459) -/

/-- Outcome of the request-line part of `process_request`
(lines 407-440): the three error sends, or the raw (still percent-encoded)
target with which processing continues. -/
inductive RequestOutcome where
  | malformed
  | methodNotAllowed
  | uriTooLong
  | resolve (uri : List Char)
deriving DecidableEq

/-- Lines 407-440 of `HttpConnection::process_request`: locate
`\r\n\r\n` anywhere in the buffer, then the first space — of the WHOLE
buffer, `request.find(" ")` is not restricted to the first line — then
compare the method case-insensitively with `GET`, then the next space,
then the 1024-byte limit on the raw target. -/
def parse_request_line (request : String) : RequestOutcome :=
  match strFind request.data "\r\n\r\n".data 0 with
  | none => RequestOutcome.malformed
  | some _ =>
    match strFind request.data " ".data 0 with
    | none => RequestOutcome.malformed
    | some index =>
      if !string_icompare "GET".data (request.data.take index) then
        RequestOutcome.methodNotAllowed
      else
        match strFind request.data " ".data (index + 1) with
        | none => RequestOutcome.malformed
        | some index2 =>
          let uri := (request.data.drop (index + 1)).take (index2 - (index + 1))
          if HTTP_URI_MAX_LEN < uri.length then RequestOutcome.uriTooLong
          else RequestOutcome.resolve uri

/-- The raw target extracted by the successful-`GET` path of
`process_request`, before the length check: `some uri` exactly when the
terminator is present, a first space is found, the method compares equal
to `GET`, and a second space is found. -/
def rawTarget? (request : String) : Option (List Char) :=
  match strFind request.data "\r\n\r\n".data 0 with
  | none => none
  | some _ =>
    match strFind request.data " ".data 0 with
    | none => none
    | some index =>
      if !string_icompare "GET".data (request.data.take index) then none
      else
        match strFind request.data " ".data (index + 1) with
        | none => none
        | some index2 =>
          some ((request.data.drop (index + 1)).take (index2 - (index + 1)))

/-! ### The connection handler (lines 480-499 with 442-459)

`ConnEnv` packages the externals of one connection-handling task: the
`setsockopt` result, the `recv` result and buffer contents, and the
filesystem's answers for the path resolved from the decoded target
(the fields are functions of the decoded target; `rootPath` and the
UTF-8-to-wide conversions are absorbed into this keying). -/
structure ConnEnv where
  sockoptOk : Bool
  recvLen : Int
  recvBuf : String
  isDirectory : List Char → Bool
  isRegularFile : List Char → Bool
  dirName : List Char → String
  dirIter : List Char → Except Nat (List DirEntry)
  extension : List Char → String
  fileContent : List Char → Option String

/-- `HttpConnection::process_request` (lines 407-459): the request-line
phase, then percent-decoding and classification (`fs::is_directory`,
`fs::is_regular_file`) and the matching response.  The result is the list
of `send` calls; `Except.error` is an exception propagating out of the
function (the source has no try/catch). -/
def process_request (env : ConnEnv) : Except Nat (List String) :=
  match parse_request_line env.recvBuf with
  | RequestOutcome.malformed => Except.ok [HTTP_500_INTERNAL_SERVER_ERROR]
  | RequestOutcome.methodNotAllowed => Except.ok [HTTP_405_METHOD_NOT_ALLOWED]
  | RequestOutcome.uriTooLong => Except.ok [HTTP_414_URI_TOO_LONG]
  | RequestOutcome.resolve uri =>
    let p := uri_decode uri
    if env.isDirectory p then serve_dir (env.dirName p) (env.dirIter p)
    else if env.isRegularFile p then
      Except.ok (serve_file (env.extension p) (env.fileContent p))
    else Except.ok [HTTP_404_NOT_FOUND]

/-- `HttpConnection::start` (lines 480-499): a failed `setsockopt` is
logged and the handler returns with no response; a negative or zero
`recv` result is logged and the handler returns with no response; a
positive result runs `process_request`. -/
def start (env : ConnEnv) : Except Nat (List String) :=
  if env.sockoptOk = false then Except.ok []
  else if env.recvLen < 0 then Except.ok []
  else if env.recvLen = 0 then Except.ok []
  else process_request env

/-! ### The thread pool (lines 199-255)

Every access to `running` and `taskQueue` in the source is performed
inside a critical section of the single mutex `mut`, so the pool is
modelled as a transition system whose atomic steps are those critical
sections.  Tasks are identified by `Nat` ids; `done` is the ghost log of
(worker, task) executions in dequeue order and `submitted` the ghost log
of `add_task` calls in call order.  An interleaving of the workers, the
producer and the destructor is a `List PoolEvent` of enabled steps. -/
structure ThreadPool where
  running : Bool
  taskQueue : List Nat
  workers : List Bool
  done : List (Nat × Nat)
  submitted : List Nat
deriving DecidableEq

inductive PoolEvent where
  /-- `add_task` (lines 247-254): push to the back of the queue. -/
  | add (t : Nat)
  /-- One iteration of a worker's loop body with the queue non-empty
  (lines 211-226): pop the front task under the lock, then execute it. -/
  | work (w : Nat)
  /-- The worker-loop return (lines 218-220): requires `!running` and an
  empty queue; the worker leaves the loop. -/
  | exit (w : Nat)
  /-- The destructor's critical section (lines 234-239): set `running`
  to `false`. -/
  | shutdown
deriving DecidableEq

def PoolEvent.isAdd : PoolEvent → Bool
  | PoolEvent.add _ => true
  | _ => false

def ThreadPool.init (numOfWorkers : Nat) : ThreadPool :=
  { running := true, taskQueue := [], workers := List.replicate numOfWorkers true,
    done := [], submitted := [] }

def ThreadPool.step (p : ThreadPool) : PoolEvent → Option ThreadPool
  | PoolEvent.add t =>
    some { p with taskQueue := p.taskQueue ++ [t], submitted := p.submitted ++ [t] }
  | PoolEvent.work w =>
    match p.taskQueue with
    | [] => none
    | t :: rest =>
      if p.workers.getD w false then
        some { p with taskQueue := rest, done := p.done ++ [(w, t)] }
      else none
  | PoolEvent.exit w =>
    if p.workers.getD w false && !p.running && p.taskQueue.isEmpty then
      some { p with workers := p.workers.set w false }
    else none
  | PoolEvent.shutdown => some { p with running := false }

def ThreadPool.run (p : ThreadPool) : List PoolEvent → Option ThreadPool
  | [] => some p
  | e :: es =>
    match p.step e with
    | none => none
    | some q => q.run es

/-! ### The dispatcher loop (HttpFileServer::serve, lines 549-561)

The loop body: `accept`; on `INVALID_SOCKET` the source calls
`throw_last_sys_error`, so the exception leaves `serve` and the loop is
over; otherwise the connection is wrapped and submitted to the pool and
the loop continues.  `serve_loop` consumes a finite prefix of `accept`
results (`none` = `INVALID_SOCKET`) and returns the connections submitted
to the pool together with `true` when the loop was terminated by the
thrown exception. -/
def serve_loop : List (Option Nat) → List Nat × Bool
  | [] => ([], false)
  | none :: _ => ([], true)
  | some s :: rest =>
    let r := serve_loop rest
    (s :: r.1, r.2)

/-! ### Spec-side notions used by amended claims -/

/-- A byte value that is a hexadecimal digit in the RFC 3986 sense:
`0`-`9`, `a`-`f` or `A`-`F`. -/
def isHexDigitByte (n : Nat) : Prop :=
  (48 ≤ n ∧ n ≤ 57) ∨ (97 ≤ n ∧ n ≤ 102) ∨ (65 ≤ n ∧ n ≤ 70)

instance (n : Nat) : Decidable (isHexDigitByte n) := by
  unfold isHexDigitByte; infer_instance

/-- The standard value of a hexadecimal digit byte. -/
def hexDigitVal (n : Nat) : Nat :=
  if 48 ≤ n ∧ n ≤ 57 then n - 48
  else if 97 ≤ n ∧ n ≤ 102 then n - 87
  else n - 55

/-- Environment used to exhibit a task whose internal failure escapes:
a well-formed `GET /` request whose resolved path is a directory, with
`fs::directory_iterator` construction raising a filesystem error
(e.g. the directory was removed between classification and iteration). -/
def c3Env : ConnEnv :=
  { sockoptOk := true, recvLen := 18, recvBuf := "GET / HTTP/1.1\r\n\r\n",
    isDirectory := fun _ => true, isRegularFile := fun _ => false,
    dirName := fun _ => "C:/root", dirIter := fun _ => Except.error 2,
    extension := fun _ => "", fileContent := fun _ => none }

/-- Environment whose request buffer has no `\r\n\r\n` terminator: the
parse fails with `MalformedRequest` and the task answers 500 internally. -/
def c3WitnessEnv : ConnEnv :=
  { sockoptOk := true, recvLen := 3, recvBuf := "XYZ",
    isDirectory := fun _ => false, isRegularFile := fun _ => false,
    dirName := fun _ => "", dirIter := fun _ => Except.ok [],
    extension := fun _ => "", fileContent := fun _ => none }

/-- The ghost invariant of the task queue: the executed tasks followed by
the still-queued tasks are exactly the submitted tasks, in submission
order. -/
def poolInv (p : ThreadPool) : Prop :=
  p.done.map Prod.snd ++ p.taskQueue = p.submitted

/-- Shutdown-phase invariant: `running` is off, and if every worker has
returned the queue must already be empty. -/
def poolJ (p : ThreadPool) : Prop :=
  p.running = false ∧ (p.workers.all (fun b => !b) = true → p.taskQueue = [])

/-! ## Helper lemmas -/

theorem string_data_append (a b : String) : (a ++ b).data = a.data ++ b.data := rfl

theorem serve_file_some_eq (extension content : String) :
    serve_file extension (some content) =
      ["HTTP/1.1 200 OK\r\nServer: Miku Server\r\nConnection: close\r\n"
        ++ (("Content-Type: " ++ mime_content_type extension ++ "\r\n")
        ++ (("Content-Length: " ++ toString content.length ++ "\r\n")
        ++ "\r\n")), content] := rfl

theorem serve_dir_ok_eq (dirName : String) (entries : List DirEntry)
    (entriesBody : String) (h : dirBody entries = Except.ok entriesBody) :
    serve_dir dirName (Except.ok entries) =
      Except.ok ["HTTP/1.1 200 OK\r\nServer: Miku Server\r\nConnection: close\r\n"
        ++ ("Content-Type: text/html; charset=utf-8\r\n"
        ++ (("Content-Length: "
              ++ toString ("<html><header><h1>Miku Server</h1></header><body>"
                ++ (("Current dir: " ++ dirName ++ "<br><br>")
                ++ (entriesBody ++ "</body></html>"))).length ++ "\r\n\r\n")
        ++ ("<html><header><h1>Miku Server</h1></header><body>"
              ++ (("Current dir: " ++ dirName ++ "<br><br>")
              ++ (entriesBody ++ "</body></html>")))))] := by
  simp [serve_dir, h]

theorem hex_to_decimal_hex_digit (c : Char) (h : isHexDigitByte c.toNat) :
    hex_to_decimal c = (hexDigitVal c.toNat : Int) ∧ hexDigitVal c.toNat < 16 := by
  unfold hex_to_decimal hexDigitVal
  rcases h with ⟨h1, h2⟩ | ⟨h1, h2⟩ | ⟨h1, h2⟩ <;> split_ifs <;> constructor <;> omega

/-! ## C2 — accept failures and the dispatcher loop -/

/-- C2 counterexample: the claim says a failed `accept` is logged and the
loop continues with subsequent connections.  In the source
(lines 553-556) `INVALID_SOCKET` triggers `throw_last_sys_error`, so after
a failed accept followed by a successful one, nothing is submitted and the
loop is terminated by the exception: the subsequent connection is never
served. -/
theorem accept_failure_stops_loop :
    serve_loop [none, some 1] = ([], true) ∧ (serve_loop [none, some 1]).1 ≠ [1] := by
  decide

/-- C2 amended: a single `accept` failure is fatal: it raises an exception
that terminates the dispatcher loop.  Connections accepted before the
failure were submitted; none after it are.  Only a run in which every
accept succeeds keeps the loop alive, submitting every connection. -/
theorem serve_accept_failure_fatal :
    (∀ accepts : List (Option Nat), (∀ x ∈ accepts, x ≠ none) →
        serve_loop accepts = (accepts.filterMap id, false)) ∧
    (∀ pre post : List (Option Nat), (∀ x ∈ pre, x ≠ none) →
        serve_loop (pre ++ none :: post) = (pre.filterMap id, true)) := by
  constructor
  · intro accepts h
    induction accepts with
    | nil => rfl
    | cons x rest ih =>
      cases x with
      | none => exact absurd rfl (h none (List.mem_cons_self _ _))
      | some s =>
        have hr := ih (fun y hy => h y (List.mem_cons_of_mem _ hy))
        simp [serve_loop, hr, List.filterMap_cons]
  · intro pre post h
    induction pre with
    | nil => rfl
    | cons x rest ih =>
      cases x with
      | none => exact absurd rfl (h none (List.mem_cons_self _ _))
      | some s =>
        have hr := ih (fun y hy => h y (List.mem_cons_of_mem _ hy))
        simp [serve_loop, hr, List.filterMap_cons]

theorem serve_accept_failure_fatal_witness :
    serve_loop [some 3, none] = ([3], true) := by
  have h := serve_accept_failure_fatal.2 [some 3] [] (by decide)
  simpa using h

/-! ## C4 — `Connection: close` headers -/

set_option maxRecDepth 40000 in
/-- C4 counterexample: the claim says every response, the fixed 404
included, contains a `Connection: close` header field.
`build_response_with_http_code` (lines 33-43) emits only `Content-Type`
and `Content-Length`, so the fixed 404 response contains no
`Connection: close`. -/
theorem http404_lacks_connection_close :
    ¬ ("Connection: close".data <:+: HTTP_404_NOT_FOUND.data) := by decide

set_option maxRecDepth 40000 in
/-- C4 amended: the 200 responses built by `serve_file` and `serve_dir`
do contain `Connection: close`, but none of the four fixed error
responses (404, 405, 414, 500) contains one. -/
theorem responses_connection_close :
    (∀ extension content, "Connection: close".data <:+:
        ((serve_file extension (some content)).headD "").data) ∧
    (∀ dirName dirIter sends, serve_dir dirName dirIter = Except.ok sends →
        "Connection: close".data <:+: (sends.headD "").data) ∧
    (¬ ("Connection: close".data <:+: HTTP_404_NOT_FOUND.data)) ∧
    (¬ ("Connection: close".data <:+: HTTP_405_METHOD_NOT_ALLOWED.data)) ∧
    (¬ ("Connection: close".data <:+: HTTP_414_URI_TOO_LONG.data)) ∧
    (¬ ("Connection: close".data <:+: HTTP_500_INTERNAL_SERVER_ERROR.data)) := by
  refine ⟨?_, ?_, by decide, by decide, by decide, by decide⟩
  · intro ext content
    rw [serve_file_some_eq]
    simp only [List.headD]
    rw [string_data_append]
    exact (show "Connection: close".data <:+:
      ("HTTP/1.1 200 OK\r\nServer: Miku Server\r\nConnection: close\r\n").data by
        decide).trans (List.prefix_append _ _).isInfix
  · intro d it sends h
    cases it with
    | error e => simp [serve_dir] at h
    | ok entries =>
      cases hb : dirBody entries with
      | error e => simp [serve_dir, hb] at h
      | ok entriesBody =>
        rw [serve_dir_ok_eq d entries entriesBody hb] at h
        injection h with h'
        subst h'
        simp only [List.headD]
        rw [string_data_append]
        exact (show "Connection: close".data <:+:
          ("HTTP/1.1 200 OK\r\nServer: Miku Server\r\nConnection: close\r\n").data by
            decide).trans (List.prefix_append _ _).isInfix

theorem responses_connection_close_witness :
    "Connection: close".data <:+:
      (((serve_dir "x" (Except.ok [])).toOption.getD []).headD "").data :=
  responses_connection_close.2.1 "x" (Except.ok [])
    ((serve_dir "x" (Except.ok [])).toOption.getD []) (by rfl)

/-! ## C5 — percent-decoding -/

/-- C5 counterexample: the claim says a `%` not followed by two hex
digits, such as `%zz`, is copied through unchanged.  In the source
(lines 316-318) the only guard is that two bytes follow the `%`
(`i + 2 < len`); `hex_to_decimal` maps `z` to 35, and
`static_cast<char>(16 * 35 + 35)` is the byte 83, so `%zz` decodes to
`S`, not to `%zz`. -/
theorem percent_decode_consumes_nonhex :
    uri_decode "%zz".data = "S".data ∧ uri_decode "%zz".data ≠ "%zz".data := by
  decide

/-- C5 amended: a `%` followed by two hexadecimal digits decodes to the
byte they encode, and every byte other than such a consuming `%` triple
is copied through unchanged when it is not a `%` with two or more
following bytes; a `%` followed by fewer than two bytes is copied through
unchanged.  (A `%` followed by two non-hex bytes is NOT copied through:
it is consumed together with both bytes, producing
`(16 * hex_to_decimal(a) + hex_to_decimal(b)) mod 256`.) -/
theorem percent_decode_behaviour :
    (∀ (a b : Char) (rest : List Char),
        isHexDigitByte a.toNat → isHexDigitByte b.toNat →
        uri_decode ('%' :: a :: b :: rest) =
          Char.ofNat (16 * hexDigitVal a.toNat + hexDigitVal b.toNat)
            :: uri_decode rest) ∧
    (∀ (c : Char) (rest : List Char), c ≠ '%' →
        uri_decode (c :: rest) = c :: uri_decode rest) ∧
    (uri_decode ['%'] = ['%']) ∧
    (∀ b : Char, uri_decode ['%', b] = ['%', b]) := by
  refine ⟨?_, ?_, rfl, fun b => rfl⟩
  · intro a b rest ha hb
    obtain ⟨ea, la⟩ := hex_to_decimal_hex_digit a ha
    obtain ⟨eb, lb⟩ := hex_to_decimal_hex_digit b hb
    have h1 : ((16 * hex_to_decimal a + hex_to_decimal b) % 256).toNat
        = 16 * hexDigitVal a.toNat + hexDigitVal b.toNat := by
      rw [ea, eb, Int.emod_eq_of_lt (by omega) (by omega)]
      omega
    simp [uri_decode, h1]
  · intro c rest hc
    match rest with
    | [] => simp [uri_decode]
    | [x] => simp [uri_decode]
    | x :: y :: ys => simp [uri_decode, hc]

theorem percent_decode_behaviour_witness :
    uri_decode "%41".data = "A".data := by
  have h := percent_decode_behaviour.1 '4' '1' [] (by decide) (by decide)
  rw [show "%41".data = '%' :: '4' :: '1' :: [] from rfl, h]
  decide

/-! ## C7 — MIME lookup -/

set_option maxRecDepth 40000 in
/-- C7 counterexample: the claim says the content type is looked up by
the LOWERCASE form of the extension, so `.HTML` should get `text/html`.
The source (lines 334-343) performs an exact, case-sensitive
`std::map::find` on `p.extension().string()` with no case conversion:
`.HTML` misses the table and is served as `text/plain`. -/
theorem mime_lookup_uppercase_miss :
    mime_content_type ".HTML" = "text/plain" ∧
    ("Content-Type: text/plain".data <:+:
        ((serve_file ".HTML" (some "x")).headD "").data) ∧
    ¬ ("Content-Type: text/html".data <:+:
        ((serve_file ".HTML" (some "x")).headD "").data) := by
  refine ⟨by decide, by decide, by decide⟩

/-- C7 amended: the content type is determined by a case-sensitive
exact lookup of the extension as it appears (no lowercasing), with
`text/plain` on a miss; an extension differing only in letter case from a
table key misses the table. -/
theorem mime_lookup_exact_match :
    (∀ extension content,
        ("Content-Type: " ++ mime_content_type extension ++ "\r\n").data <:+:
          ((serve_file extension (some content)).headD "").data) ∧
    (∀ extension, HTTP_MIME_TABLE.lookup extension = none →
        mime_content_type extension = "text/plain") ∧
    (∀ extension v, HTTP_MIME_TABLE.lookup extension = some v →
        mime_content_type extension = v) ∧
    HTTP_MIME_TABLE.lookup ".html" = some "text/html" ∧
    HTTP_MIME_TABLE.lookup ".HTML" = none := by
  refine ⟨?_, ?_, ?_, by decide, by decide⟩
  · intro ext content
    rw [serve_file_some_eq]
    simp only [List.headD]
    refine ⟨("HTTP/1.1 200 OK\r\nServer: Miku Server\r\nConnection: close\r\n").data,
      (("Content-Length: " ++ toString content.length ++ "\r\n") ++ "\r\n").data, ?_⟩
    simp [string_data_append, List.append_assoc]
  · intro ext h
    simp [mime_content_type, h]
  · intro ext v h
    simp [mime_content_type, h]

theorem mime_lookup_exact_match_witness :
    mime_content_type ".txt" = "text/plain" :=
  mime_lookup_exact_match.2.1 ".txt" (by decide)

/-! ## C9 — successful file responses -/

/-- C9 confirmed: for a regular file that opens successfully, `serve_file`
sends a header starting with status line `HTTP/1.1 200 OK`, carrying
`Content-Length` equal to the exact byte count of the contents, followed
by exactly the file bytes; when the open fails it sends the fixed 404
response instead (lines 333-362). -/
theorem serve_file_success_response :
    (∀ extension content, ∃ hdr,
        serve_file extension (some content) = [hdr, content] ∧
        "HTTP/1.1 200 OK".data <+: hdr.data ∧
        ("Content-Length: " ++ toString content.length ++ "\r\n").data <:+: hdr.data) ∧
    (∀ extension, serve_file extension none = [HTTP_404_NOT_FOUND]) := by
  constructor
  · intro ext content
    refine ⟨_, serve_file_some_eq ext content, ?_, ?_⟩
    · rw [string_data_append]
      exact (show "HTTP/1.1 200 OK".data <+:
        ("HTTP/1.1 200 OK\r\nServer: Miku Server\r\nConnection: close\r\n").data by
          decide).trans (List.prefix_append _ _)
    · refine ⟨("HTTP/1.1 200 OK\r\nServer: Miku Server\r\nConnection: close\r\n").data
        ++ ("Content-Type: " ++ mime_content_type ext ++ "\r\n").data,
        "\r\n".data, ?_⟩
      simp [string_data_append, List.append_assoc]
  · intro ext
    rfl

/-! ## C6 — request-line splitting -/

theorem rawTarget_parse (req : String) (uri : List Char) (h : rawTarget? req = some uri) :
    parse_request_line req =
      (if HTTP_URI_MAX_LEN < uri.length then RequestOutcome.uriTooLong
       else RequestOutcome.resolve uri) := by
  unfold rawTarget? at h
  unfold parse_request_line
  split at h
  · exact absurd h (by simp)
  · split at h
    · exact absurd h (by simp)
    · next i hsp =>
      split at h
      · exact absurd h (by simp)
      · split at h
        · exact absurd h (by simp)
        · next j hsp2 =>
          injection h with h'
          subst h'
          rename_i hterm _ hic _
          simp [hic]

/-- C6 counterexample: the claim says the method token comes from
splitting the FIRST LINE on its first space, and that a first line with
no space yields `MalformedRequest` even when spaces occur later in the
buffer.  The source uses `request.find(" ")` over the whole buffer
(line 418): for the buffer `ABC\r\nX Y\r\n\r\n` — whose first line `ABC`
contains no space — the space inside the second line is found, the
"method" becomes `ABC\r\nX`, and the result is `UnsupportedMethod`
(405), not `MalformedRequest` (500). -/
theorem method_split_spans_lines :
    parse_request_line "ABC\r\nX Y\r\n\r\n" = RequestOutcome.methodNotAllowed ∧
    RequestOutcome.methodNotAllowed ≠ RequestOutcome.malformed ∧
    strFind "ABC".data " ".data 0 = none := by decide

/-- C6 amended: for every buffer containing the `\r\n\r\n` terminator,
the method token is the segment before the first space of the WHOLE
buffer and the raw target runs to the next space of the whole buffer;
the result is `MalformedRequest` exactly when the whole buffer contains
no space, or the method compares equal to `GET` and no second space
exists anywhere after the first. -/
theorem first_space_splits_whole_buffer (req : String)
    (hterm : strFind req.data "\r\n\r\n".data 0 ≠ none) :
    parse_request_line req = RequestOutcome.malformed ↔
      strFind req.data " ".data 0 = none ∨
      ∃ i, strFind req.data " ".data 0 = some i ∧
        string_icompare "GET".data (req.data.take i) = true ∧
        strFind req.data " ".data (i + 1) = none := by
  obtain ⟨k, hk⟩ := Option.ne_none_iff_exists'.mp hterm
  unfold parse_request_line
  rw [hk]
  cases h1 : strFind req.data " ".data 0 with
  | none => simp [h1]
  | some i =>
    cases hic : string_icompare "GET".data (req.data.take i) with
    | false => simp [hic]
    | true =>
      cases h2 : strFind req.data " ".data (i + 1) with
      | none => simp [h2, hic]
      | some j => simp [h2, hic, ite_eq_iff]

theorem first_space_splits_whole_buffer_witness :
    parse_request_line "GETX\r\n\r\n" = RequestOutcome.malformed := by
  have h := first_space_splits_whole_buffer "GETX\r\n\r\n" (by decide)
  exact h.mpr (Or.inl (by decide))

/-! ## C8 — the 1024-byte target limit -/

/-- C8 confirmed: for every request from which the successful-`GET` path
extracts a raw target, the parse result is `TargetTooLong` (the 414
response) if and only if the raw, still percent-encoded target exceeds
`HTTP_URI_MAX_LEN` = 1024 bytes (the check `uri.size() > HTTP_URI_MAX_LEN`
on line 437 precedes `uri_decode`); a target of exactly 1024 bytes
proceeds to decoding and resolution.  The last conjunct connects the
parse outcome to the wire response: the handler then sends exactly the
fixed 414 response. -/
theorem uri_length_limit :
    (∀ (req : String) (uri : List Char), rawTarget? req = some uri →
      (parse_request_line req = RequestOutcome.uriTooLong ↔
        HTTP_URI_MAX_LEN < uri.length) ∧
      (uri.length ≤ HTTP_URI_MAX_LEN →
        parse_request_line req = RequestOutcome.resolve uri)) ∧
    (∀ env : ConnEnv, env.sockoptOk = true → 0 < env.recvLen →
      parse_request_line env.recvBuf = RequestOutcome.uriTooLong →
      start env = Except.ok [HTTP_414_URI_TOO_LONG]) := by
  constructor
  · intro req uri h
    rw [rawTarget_parse req uri h]
    constructor
    · constructor
      · intro he
        by_contra hlen
        rw [if_neg hlen] at he
        exact RequestOutcome.noConfusion he
      · intro hlen
        rw [if_pos hlen]
    · intro hle
      rw [if_neg (by omega)]
  · intro env h1 h2 h3
    unfold start
    rw [if_neg (by simp [h1]), if_neg (by omega), if_neg (by omega)]
    unfold process_request
    rw [h3]

theorem uri_length_limit_witness :
    parse_request_line "GET /x HTTP/1.1\r\n\r\n" = RequestOutcome.resolve "/x".data :=
  (uri_length_limit.1 "GET /x HTTP/1.1\r\n\r\n" "/x".data (by decide)).2 (by decide)

/-! ## C3 — failures inside a task -/

/-- C3 counterexample: the claim says every failure arising inside a
submitted connection-handling task is fully handled within the task.
`HttpConnection::start` and everything it calls contain no try/catch;
in `c3Env` — a well-formed `GET /` whose resolved path is a directory
but whose `fs::directory_iterator` construction throws (e.g. the
directory vanished between `fs::is_directory` and iteration,
lines 451-452 and 384) — the exception propagates out of the task
(into the worker thread, where it would terminate the process). -/
theorem task_failure_escapes_pool : start c3Env = Except.error 2 := rfl

/-- C3 amended: socket-level failures (`setsockopt`, `recv` returning
zero or negative) and request-parse failures ARE handled inside the task,
but a filesystem error thrown during directory listing propagates out of
the task uncaught. -/
theorem task_error_handling :
    (∀ env : ConnEnv, env.sockoptOk = false → start env = Except.ok []) ∧
    (∀ env : ConnEnv, env.recvLen ≤ 0 → env.sockoptOk = true →
        start env = Except.ok []) ∧
    (∀ env : ConnEnv, env.sockoptOk = true → 0 < env.recvLen →
        parse_request_line env.recvBuf = RequestOutcome.malformed →
        start env = Except.ok [HTTP_500_INTERNAL_SERVER_ERROR]) ∧
    (∀ (env : ConnEnv) (u : List Char) (e : Nat),
        env.sockoptOk = true → 0 < env.recvLen →
        parse_request_line env.recvBuf = RequestOutcome.resolve u →
        env.isDirectory (uri_decode u) = true →
        env.dirIter (uri_decode u) = Except.error e →
        start env = Except.error e) := by
  refine ⟨?_, ?_, ?_, ?_⟩
  · intro env h
    unfold start
    rw [if_pos h]
  · intro env h1 h2
    unfold start
    rw [if_neg (by simp [h2])]
    by_cases hneg : env.recvLen < 0
    · rw [if_pos hneg]
    · rw [if_neg hneg, if_pos (by omega)]
  · intro env h1 h2 h3
    unfold start
    rw [if_neg (by simp [h1]), if_neg (by omega), if_neg (by omega)]
    unfold process_request
    rw [h3]
  · intro env u e h1 h2 h3 h4 h5
    unfold start
    rw [if_neg (by simp [h1]), if_neg (by omega), if_neg (by omega)]
    unfold process_request
    rw [h3]
    simp [h4, h5, serve_dir]

theorem task_error_handling_witness :
    start c3WitnessEnv = Except.ok [HTTP_500_INTERNAL_SERVER_ERROR] :=
  task_error_handling.2.2.1 c3WitnessEnv rfl (by decide) (by decide)

/-! ## C1 and C10 — the thread pool -/

theorem step_add_eq (p : ThreadPool) (t : Nat) :
    p.step (PoolEvent.add t) =
      some { p with taskQueue := p.taskQueue ++ [t],
                    submitted := p.submitted ++ [t] } := rfl

theorem step_shutdown_eq (p : ThreadPool) :
    p.step PoolEvent.shutdown = some { p with running := false } := rfl

theorem step_work_inv {p q : ThreadPool} {w : Nat}
    (h : p.step (PoolEvent.work w) = some q) :
    ∃ t rest, p.taskQueue = t :: rest ∧ p.workers.getD w false = true ∧
      q = { p with taskQueue := rest, done := p.done ++ [(w, t)] } := by
  simp only [ThreadPool.step] at h
  cases hq : p.taskQueue with
  | nil => simp [hq] at h
  | cons t rest =>
    simp only [hq] at h
    by_cases hw : p.workers.getD w false = true
    · rw [if_pos hw] at h
      injection h with h'
      exact ⟨t, rest, rfl, hw, h'.symm⟩
    · rw [if_neg hw] at h
      simp at h

theorem step_exit_inv {p q : ThreadPool} {w : Nat}
    (h : p.step (PoolEvent.exit w) = some q) :
    p.workers.getD w false = true ∧ p.running = false ∧ p.taskQueue = [] ∧
      q = { p with workers := p.workers.set w false } := by
  simp only [ThreadPool.step] at h
  by_cases hc : (p.workers.getD w false && !p.running && p.taskQueue.isEmpty) = true
  · rw [if_pos hc] at h
    injection h with h'
    simp only [Bool.and_eq_true, Bool.not_eq_true'] at hc
    exact ⟨hc.1.1, hc.1.2, List.isEmpty_iff.mp hc.2, h'.symm⟩
  · rw [if_neg hc] at h
    simp at h

theorem step_preserves_inv {p q : ThreadPool} {e : PoolEvent}
    (h : p.step e = some q) (hp : poolInv p) : poolInv q := by
  cases e with
  | add t =>
    rw [step_add_eq] at h
    injection h with h'
    subst h'
    show p.done.map Prod.snd ++ (p.taskQueue ++ [t]) = p.submitted ++ [t]
    rw [← List.append_assoc, hp]
  | work w =>
    obtain ⟨t, rest, hq, hw, rfl⟩ := step_work_inv h
    show (p.done ++ [(w, t)]).map Prod.snd ++ rest = p.submitted
    unfold poolInv at hp
    rw [hq] at hp
    rw [List.map_append, List.append_assoc]
    simpa using hp
  | exit w =>
    obtain ⟨h1, h2, h3, rfl⟩ := step_exit_inv h
    exact hp
  | shutdown =>
    rw [step_shutdown_eq] at h
    injection h with h'
    subst h'
    exact hp

theorem run_preserves_inv : ∀ (es : List PoolEvent) (p s : ThreadPool),
    p.run es = some s → poolInv p → poolInv s := by
  intro es
  induction es with
  | nil =>
    intro p s h hp
    injection (show some p = some s from h) with h'
    subst h'
    exact hp
  | cons e es ih =>
    intro p s h hp
    unfold ThreadPool.run at h
    cases hstep : p.step e with
    | none => simp [hstep] at h
    | some q =>
      simp only [hstep] at h
      exact ih q s h (step_preserves_inv hstep hp)

theorem run_append : ∀ (l₁ l₂ : List PoolEvent) (p : ThreadPool),
    p.run (l₁ ++ l₂) = (p.run l₁).bind (fun q => q.run l₂) := by
  intro l₁
  induction l₁ with
  | nil => intro l₂ p; rfl
  | cons e es ih =>
    intro l₂ p
    show ThreadPool.run p (e :: (es ++ l₂)) = _
    cases hstep : p.step e with
    | none => simp [ThreadPool.run, hstep]
    | some q => simp [ThreadPool.run, hstep, ih l₂ q]

theorem all_not_false_of_getD {l : List Bool} {w : Nat}
    (h : l.getD w false = true) : l.all (fun b => !b) = false := by
  rw [List.getD_eq_getElem?_getD] at h
  cases hw : l[w]? with
  | none => rw [hw] at h; simp at h
  | some b =>
    rw [hw] at h
    simp at h
    subst h
    cases hall : l.all (fun b => !b) with
    | false => rfl
    | true =>
      have hmem : true ∈ l := List.getElem?_mem hw
      have hcontra := List.all_eq_true.mp hall true hmem
      simp at hcontra

theorem run_no_shutdown : ∀ (es : List PoolEvent) (p s : ThreadPool),
    p.run es = some s → p.running = true → (∀ e ∈ es, e ≠ PoolEvent.shutdown) →
    s.running = true ∧ s.workers = p.workers := by
  intro es
  induction es with
  | nil =>
    intro p s h hr _
    injection (show some p = some s from h) with h'
    subst h'
    exact ⟨hr, rfl⟩
  | cons e es ih =>
    intro p s h hr hn
    have hn' : ∀ x ∈ es, x ≠ PoolEvent.shutdown :=
      fun x hx => hn x (List.mem_cons_of_mem _ hx)
    unfold ThreadPool.run at h
    cases e with
    | add t =>
      simp only [step_add_eq] at h
      exact ih { p with taskQueue := p.taskQueue ++ [t],
                        submitted := p.submitted ++ [t] } s h hr hn'
    | work w =>
      cases hstep : p.step (PoolEvent.work w) with
      | none => simp [hstep] at h
      | some q =>
        simp only [hstep] at h
        obtain ⟨t, rest, hq, hw, rfl⟩ := step_work_inv hstep
        exact ih { p with taskQueue := rest, done := p.done ++ [(w, t)] } s h hr hn'
    | exit w =>
      cases hstep : p.step (PoolEvent.exit w) with
      | none => simp [hstep] at h
      | some q =>
        obtain ⟨h1, h2, h3, rfl⟩ := step_exit_inv hstep
        rw [hr] at h2
        exact absurd h2 (by simp)
    | shutdown => exact absurd rfl (hn _ (List.mem_cons_self _ _))

theorem run_preserves_J : ∀ (es : List PoolEvent) (p s : ThreadPool),
    p.run es = some s → poolJ p → (∀ e ∈ es, e.isAdd = false) → poolJ s := by
  intro es
  induction es with
  | nil =>
    intro p s h hJ _
    injection (show some p = some s from h) with h'
    subst h'
    exact hJ
  | cons e es ih =>
    intro p s h hJ hn
    have hn' : ∀ x ∈ es, x.isAdd = false :=
      fun x hx => hn x (List.mem_cons_of_mem _ hx)
    unfold ThreadPool.run at h
    cases e with
    | add t =>
      have hfalse := hn _ (List.mem_cons_self _ _)
      simp [PoolEvent.isAdd] at hfalse
    | work w =>
      cases hstep : p.step (PoolEvent.work w) with
      | none => simp [hstep] at h
      | some q =>
        simp only [hstep] at h
        obtain ⟨t, rest, hq, hw, rfl⟩ := step_work_inv hstep
        refine ih { p with taskQueue := rest, done := p.done ++ [(w, t)] } s h
          ⟨hJ.1, ?_⟩ hn'
        intro hall
        have hall' : p.workers.all (fun b => !b) = true := hall
        rw [all_not_false_of_getD hw] at hall'
        exact absurd hall' (by simp)
    | exit w =>
      cases hstep : p.step (PoolEvent.exit w) with
      | none => simp [hstep] at h
      | some q =>
        simp only [hstep] at h
        obtain ⟨h1, h2, h3, rfl⟩ := step_exit_inv hstep
        exact ih { p with workers := p.workers.set w false } s h
          ⟨h2, fun _ => h3⟩ hn'
    | shutdown =>
      simp only [step_shutdown_eq] at h
      exact ih { p with running := false } s h ⟨rfl, hJ.2⟩ hn'

theorem replicate_true_all_not (W : Nat) (h : 0 < W) :
    (List.replicate W true).all (fun b => !b) = false := by
  cases W with
  | zero => omega
  | succ n => simp [List.replicate]

/-- C1 confirmed: for every interleaving of `add_task` calls, worker
loop iterations and worker exits (each an atomic critical section of the
pool mutex, lines 209-254), the executed tasks followed by the queued
tasks equal the submitted tasks in submission order.  Hence dequeue
order is FIFO (the execution log is a prefix of the submission log), with
distinct task ids no task is ever executed twice, and once the queue is
empty every submitted task has been executed exactly once — no loss, no
duplication. -/
theorem pool_exactly_once_fifo (W : Nat) (events : List PoolEvent) (s : ThreadPool)
    (h : (ThreadPool.init W).run events = some s) :
    s.done.map Prod.snd ++ s.taskQueue = s.submitted ∧
    s.done.map Prod.snd <+: s.submitted ∧
    (s.submitted.Nodup → (s.done.map Prod.snd).Nodup) ∧
    (s.taskQueue = [] → s.done.map Prod.snd = s.submitted) := by
  have hinv : poolInv s := run_preserves_inv events (ThreadPool.init W) s h rfl
  refine ⟨hinv, ⟨s.taskQueue, hinv⟩, ?_, ?_⟩
  · intro hnd
    exact hnd.sublist (List.IsPrefix.sublist ⟨s.taskQueue, hinv⟩)
  · intro hq
    unfold poolInv at hinv
    rw [hq, List.append_nil] at hinv
    exact hinv

theorem pool_exactly_once_fifo_witness :
    ([((0 : Nat), (1 : Nat)), (1, 2)].map Prod.snd = [1, 2]) :=
  (pool_exactly_once_fifo 2
    [PoolEvent.add 1, PoolEvent.add 2, PoolEvent.work 0, PoolEvent.work 1,
     PoolEvent.shutdown, PoolEvent.exit 0]
    (ThreadPool.mk false [] [false, true] [(0, 1), (1, 2)] [1, 2])
    (by decide)).2.2.2 rfl

/-- C10 confirmed: a worker can only leave its loop when `running` is
false AND the queue is empty (lines 218-220), so no worker exits while
tasks are pending; and for any run `pre ++ shutdown :: post` in which
destruction has begun (no further `add_task` after the single
destructor-shutdown), if every worker has returned (the destructor's
`join`s completed, with at least one worker), the queue is empty and
every task submitted has been executed. -/
theorem pool_drains_queue_before_exit :
    (∀ (p q : ThreadPool) (w : Nat), p.step (PoolEvent.exit w) = some q →
        p.taskQueue = []) ∧
    (∀ (W : Nat) (pre post : List PoolEvent) (s : ThreadPool), 0 < W →
        (∀ e ∈ pre, e ≠ PoolEvent.shutdown) →
        (∀ e ∈ post, e.isAdd = false) →
        (ThreadPool.init W).run (pre ++ PoolEvent.shutdown :: post) = some s →
        s.workers.all (fun b => !b) = true →
        s.taskQueue = [] ∧ s.done.map Prod.snd = s.submitted) := by
  constructor
  · intro p q w h
    exact (step_exit_inv h).2.2.1
  · intro W pre post s hW hpre hpost hrun hdead
    rw [run_append] at hrun
    cases h1 : (ThreadPool.init W).run pre with
    | none => rw [h1] at hrun; simp at hrun
    | some p1 =>
      rw [h1] at hrun
      simp only [Option.bind] at hrun
      have hpre' := run_no_shutdown pre (ThreadPool.init W) p1 h1 rfl hpre
      unfold ThreadPool.run at hrun
      simp only [step_shutdown_eq] at hrun
      have hJ : poolJ s := by
        refine run_preserves_J post { p1 with running := false } s hrun ⟨rfl, ?_⟩ hpost
        intro hall
        have hall' : (List.replicate W true).all (fun b => !b) = true := by
          have hw : p1.workers = List.replicate W true := hpre'.2
          rw [← hw]
          exact hall
        rw [replicate_true_all_not W hW] at hall'
        exact absurd hall' (by simp)
      have hq : s.taskQueue = [] := hJ.2 hdead
      have hinv : poolInv s := by
        have hA : poolInv p1 := run_preserves_inv pre _ p1 h1 rfl
        exact run_preserves_inv post { p1 with running := false } s hrun hA
      refine ⟨hq, ?_⟩
      unfold poolInv at hinv
      rw [hq, List.append_nil] at hinv
      exact hinv

theorem pool_drains_queue_before_exit_witness :
    (ThreadPool.mk false [] [false] [(0, 5)] [5]).taskQueue = [] ∧
    (ThreadPool.mk false [] [false] [(0, 5)] [5]).done.map Prod.snd =
      (ThreadPool.mk false [] [false] [(0, 5)] [5]).submitted :=
  pool_drains_queue_before_exit.2 1 [PoolEvent.add 5]
    [PoolEvent.work 0, PoolEvent.exit 0]
    (ThreadPool.mk false [] [false] [(0, 5)] [5])
    (by decide) (by decide) (by decide) (by decide) (by decide)
